import Mathlib

/-!
Shallow embedding of the static source-analysis tool in `src/main.rs`
(a scanner that reports types deriving `Reflect` and `Component` without a
`#[reflect(Component)]` attribute), together with theorems settling the
specification claims.

Paths are modelled as lists of path segments (Rust `Path` components);
attributes are modelled by the shape the code inspects: a `Meta::List` with
a path identifier, a token string (used by the `#[cfg(test)]` substring
check) and the list of nested meta identifiers (as produced by
`parse_nested_meta`), or any other meta shape, which the code ignores.
-/

namespace BevyReflectCheck

/-- Rust `str::contains` on a list of characters: `pat` occurs as a
contiguous infix. -/
def char_list_contains_sub (pat : List Char) : List Char → Bool
  | [] => pat.isEmpty
  | c :: rest => pat.isPrefixOf (c :: rest) || char_list_contains_sub pat rest

/-- Rust `str::contains`: `pat` is a literal substring of `s`. -/
def str_contains_sub (s pat : String) : Bool :=
  char_list_contains_sub pat.data s.data

/-- Model of `syn::Meta` restricted to what the code inspects: `Meta::List`
carries its path identifier, its raw token text, and the identifiers its
tokens parse to under `parse_nested_meta`; every other meta shape is
`other`. -/
inductive AttrMeta where
  | list (path : String) (tokens : String) (nested : List String)
  | other
deriving DecidableEq

/-- Model of `syn::Attribute`: the code only ever reads `attr.meta`. -/
structure Attribute where
  meta : AttrMeta
deriving DecidableEq

/-- Model of `syn::Visibility`: `Public`, `Restricted` (`pub(crate)`,
`pub(super)`, `pub(in path)`, with the restriction path recorded), or
`Inherited` (no modifier). -/
inductive Visibility where
  | pub
  | restricted (path : String)
  | inherited
deriving DecidableEq

/-- Model of `syn::Item` restricted to the constructors the walker
distinguishes: structs, enums, modules (with optional inline content), and
everything else. -/
inductive Item where
  | structItem (vis : Visibility) (attrs : List Attribute) (ident : String)
  | enumItem (vis : Visibility) (attrs : List Attribute) (ident : String)
  | modItem (vis : Visibility) (attrs : List Attribute) (ident : String)
      (content : Option (List Item))
  | other

/-- `has_cfg_test` from the source: some attribute is a `Meta::List` whose
path is the identifier `cfg` and whose token text contains `test` as a
literal substring. -/
def has_cfg_test (attrs : List Attribute) : Bool :=
  attrs.any fun attr =>
    match attr.meta with
    | .list p toks _ => p == "cfg" && str_contains_sub toks "test"
    | .other => false

/-- Helper for `is_public`: only `Visibility::Public(_)` matches. -/
def vis_is_public : Visibility → Bool
  | .pub => true
  | _ => false

/-- `is_public` from the source: structs, enums and modules are public
exactly when their visibility is `Visibility::Public`; every other item
kind is not public. -/
def is_public : Item → Bool
  | .structItem v _ _ => vis_is_public v
  | .enumItem v _ _ => vis_is_public v
  | .modItem v _ _ _ => vis_is_public v
  | .other => false

/-- The three mutable flags accumulated by
`derives_reflect_and_component_but_no_reflect_component`. -/
structure DetectState where
  derives_reflect : Bool
  derives_component : Bool
  has_reflect_component_attr : Bool
deriving DecidableEq

/-- One iteration of the attribute loop in
`derives_reflect_and_component_but_no_reflect_component`: a
`#[derive(...)]` list sets the two derive flags from its nested
identifiers, a `#[reflect(...)]` list sets the registration flag, anything
else leaves the state unchanged. -/
def detect_step (st : DetectState) (attr : Attribute) : DetectState :=
  match attr.meta with
  | .list p _ nested =>
    if p == "derive" then
      { st with
        derives_reflect := st.derives_reflect || nested.contains "Reflect"
        derives_component := st.derives_component || nested.contains "Component" }
    else if p == "reflect" then
      { st with
        has_reflect_component_attr :=
          st.has_reflect_component_attr || nested.contains "Component" }
    else st
  | .other => st

/-- `derives_reflect_and_component_but_no_reflect_component` from the
source: fold the attribute list through the flag accumulator and return
`derives_reflect && derives_component && !has_reflect_component_attr`. -/
def derives_reflect_and_component_but_no_reflect_component
    (attrs : List Attribute) : Bool :=
  let st := attrs.foldl detect_step ⟨false, false, false⟩
  st.derives_reflect && st.derives_component && !st.has_reflect_component_attr

/-- Capability A of the spec: some `#[derive(...)]` attribute lists
`Reflect`. -/
def declares_capability_A (attrs : List Attribute) : Bool :=
  attrs.any fun attr =>
    match attr.meta with
    | .list p _ nested => p == "derive" && nested.contains "Reflect"
    | .other => false

/-- Capability B of the spec: some `#[derive(...)]` attribute lists
`Component`. -/
def declares_capability_B (attrs : List Attribute) : Bool :=
  attrs.any fun attr =>
    match attr.meta with
    | .list p _ nested => p == "derive" && nested.contains "Component"
    | .other => false

/-- Registration annotation of the spec: some `#[reflect(...)]` attribute
lists `Component`. -/
def has_registration (attrs : List Attribute) : Bool :=
  attrs.any fun attr =>
    match attr.meta with
    | .list p _ nested => p == "reflect" && nested.contains "Component"
    | .other => false

theorem detect_foldl_eq (attrs : List Attribute) (a b c : Bool) :
    attrs.foldl detect_step ⟨a, b, c⟩ =
      ⟨a || declares_capability_A attrs, b || declares_capability_B attrs,
        c || has_registration attrs⟩ := by
  induction attrs generalizing a b c with
  | nil =>
    simp [declares_capability_A, declares_capability_B, has_registration]
  | cons x xs ih =>
    obtain ⟨m⟩ := x
    cases m with
    | list p toks nested =>
      by_cases hd : p = "derive"
      · subst hd
        simp [detect_step, List.foldl_cons, ih, declares_capability_A,
          declares_capability_B, has_registration, Bool.or_assoc]
      · by_cases hr : p = "reflect"
        · subst hr
          simp [detect_step, List.foldl_cons, ih, declares_capability_A,
            declares_capability_B, has_registration, Bool.or_assoc]
        · have hd' : (p == "derive") = false := beq_eq_false_iff_ne.mpr hd
          have hr' : (p == "reflect") = false := beq_eq_false_iff_ne.mpr hr
          simp [detect_step, List.foldl_cons, ih, declares_capability_A,
            declares_capability_B, has_registration, hd', hr']
    | other =>
      simp [detect_step, List.foldl_cons, ih, declares_capability_A,
        declares_capability_B, has_registration]

theorem detect_eq_caps (attrs : List Attribute) :
    derives_reflect_and_component_but_no_reflect_component attrs =
      (declares_capability_A attrs && declares_capability_B attrs &&
        !has_registration attrs) := by
  simp [derives_reflect_and_component_but_no_reflect_component,
    detect_foldl_eq]

/-- C1: the detection predicate is true on an attribute list iff the list
declares capability A (`derive(Reflect)`) and capability B
(`derive(Component)`) and does not carry the registration annotation
(`#[reflect(Component)]`); over the 8 combinations of the three flags it
is true exactly on `(true, true, false)`, and it is a pure function of the
attribute list alone. -/
theorem c1_detection_predicate_truth_table (attrs : List Attribute) :
    derives_reflect_and_component_but_no_reflect_component attrs =
      (declares_capability_A attrs && declares_capability_B attrs &&
        !has_registration attrs) ∧
    (derives_reflect_and_component_but_no_reflect_component attrs = true ↔
      declares_capability_A attrs = true ∧
      declares_capability_B attrs = true ∧
      has_registration attrs = false) := by
  refine ⟨detect_eq_caps attrs, ?_⟩
  rw [detect_eq_caps attrs]
  cases hA : declares_capability_A attrs <;>
    cases hB : declares_capability_B attrs <;>
      cases hR : has_registration attrs <;> simp

/-- `collect_reflect_types` from the source, written over the item list of
a parsed file (the nested `File` the code rebuilds for a module body only
contributes its `items`). A struct or enum passing the detection predicate
is appended as `module_path::ident` unless the public-only policy is on
and `is_public item && parent_is_public` is false; a module without a
`#[cfg(.. test ..)]` attribute is recursed into (when it has inline
content) with the extended path and the conjoined visibility flag; a
module with such an attribute, like any other item, falls to the wildcard
arm and contributes nothing. -/
def collect_reflect_types : List Item → String → Bool → Bool → List String
  | [], _, _, _ => []
  | .structItem vis attrs ident :: rest, module_path, public_only, parent_is_public =>
    (if derives_reflect_and_component_but_no_reflect_component attrs then
      if public_only && !(vis_is_public vis && parent_is_public) then []
      else [module_path ++ "::" ++ ident]
    else []) ++
      collect_reflect_types rest module_path public_only parent_is_public
  | .enumItem vis attrs ident :: rest, module_path, public_only, parent_is_public =>
    (if derives_reflect_and_component_but_no_reflect_component attrs then
      if public_only && !(vis_is_public vis && parent_is_public) then []
      else [module_path ++ "::" ++ ident]
    else []) ++
      collect_reflect_types rest module_path public_only parent_is_public
  | .modItem vis attrs ident content :: rest, module_path, public_only, parent_is_public =>
    (if !has_cfg_test attrs then
      if public_only && !(vis_is_public vis && parent_is_public) then []
      else
        match content with
        | some items =>
          collect_reflect_types items (module_path ++ "::" ++ ident) public_only
            (vis_is_public vis && parent_is_public)
        | none => []
    else []) ++
      collect_reflect_types rest module_path public_only parent_is_public
  | .other :: rest, module_path, public_only, parent_is_public =>
    collect_reflect_types rest module_path public_only parent_is_public

theorem collect_nil (module_path : String) (public_only parent_is_public : Bool) :
    collect_reflect_types [] module_path public_only parent_is_public = [] := by
  rw [collect_reflect_types.eq_def]

theorem collect_cons_struct (vis : Visibility) (attrs : List Attribute)
    (ident : String) (rest : List Item) (module_path : String)
    (public_only parent_is_public : Bool) :
    collect_reflect_types (.structItem vis attrs ident :: rest) module_path
        public_only parent_is_public =
      (if derives_reflect_and_component_but_no_reflect_component attrs then
        if public_only && !(vis_is_public vis && parent_is_public) then []
        else [module_path ++ "::" ++ ident]
      else []) ++
        collect_reflect_types rest module_path public_only parent_is_public := by
  rw [collect_reflect_types.eq_def]

theorem collect_cons_enum (vis : Visibility) (attrs : List Attribute)
    (ident : String) (rest : List Item) (module_path : String)
    (public_only parent_is_public : Bool) :
    collect_reflect_types (.enumItem vis attrs ident :: rest) module_path
        public_only parent_is_public =
      (if derives_reflect_and_component_but_no_reflect_component attrs then
        if public_only && !(vis_is_public vis && parent_is_public) then []
        else [module_path ++ "::" ++ ident]
      else []) ++
        collect_reflect_types rest module_path public_only parent_is_public := by
  rw [collect_reflect_types.eq_def]

theorem collect_cons_mod (vis : Visibility) (attrs : List Attribute)
    (ident : String) (content : Option (List Item)) (rest : List Item)
    (module_path : String) (public_only parent_is_public : Bool) :
    collect_reflect_types (.modItem vis attrs ident content :: rest) module_path
        public_only parent_is_public =
      (if !has_cfg_test attrs then
        if public_only && !(vis_is_public vis && parent_is_public) then []
        else
          match content with
          | some items =>
            collect_reflect_types items (module_path ++ "::" ++ ident) public_only
              (vis_is_public vis && parent_is_public)
          | none => []
      else []) ++
        collect_reflect_types rest module_path public_only parent_is_public := by
  rw [collect_reflect_types.eq_def]

theorem collect_cons_other (rest : List Item) (module_path : String)
    (public_only parent_is_public : Bool) :
    collect_reflect_types (.other :: rest) module_path public_only
        parent_is_public =
      collect_reflect_types rest module_path public_only parent_is_public := by
  rw [collect_reflect_types.eq_def]

/-- C3: a module item carrying a `cfg` attribute whose tokens contain
`test` contributes nothing to the findings wherever it sits in an item
list, for every visibility, every content, every policy and every parent
flag: the walker's output on `pre ++ [that module] ++ post` equals its
output on `pre` followed by its output on `post`. -/
theorem c3_cfg_test_module_subtree_skipped
    (pre post : List Item) (vis : Visibility) (attrs : List Attribute)
    (ident : String) (content : Option (List Item)) (module_path : String)
    (public_only parent_is_public : Bool)
    (h : has_cfg_test attrs = true) :
    collect_reflect_types (pre ++ .modItem vis attrs ident content :: post)
        module_path public_only parent_is_public =
      collect_reflect_types pre module_path public_only parent_is_public ++
        collect_reflect_types post module_path public_only parent_is_public := by
  induction pre with
  | nil => simp [collect_cons_mod, collect_nil, h]
  | cons x xs ih =>
    cases x <;>
      simp [collect_cons_struct, collect_cons_enum, collect_cons_mod,
        collect_cons_other, ih]

theorem c3_witness :
    has_cfg_test [⟨.list "cfg" "test" []⟩] = true ∧
    collect_reflect_types
        ([] ++ .modItem .pub [⟨.list "cfg" "test" []⟩] "m"
            (some [.structItem .pub
              [⟨.list "derive" "Reflect, Component" ["Reflect", "Component"]⟩]
              "T"]) :: [])
        "crate" true true =
      collect_reflect_types [] "crate" true true ++
        collect_reflect_types [] "crate" true true :=
  ⟨by decide,
    c3_cfg_test_module_subtree_skipped [] [] .pub [⟨.list "cfg" "test" []⟩]
      "m"
      (some [.structItem .pub
        [⟨.list "derive" "Reflect, Component" ["Reflect", "Component"]⟩] "T"])
      "crate" true true (by decide)⟩

/-- C4: item visibility is the AND of the item's own modifier and the
parent scope's flag, with the root flag true; under the public-only policy
a qualifying public struct inside a public `inner` module nested in a
private `outer` module is excluded, while the same tree with `outer`
public yields exactly the fully qualified finding. -/
theorem c4_visibility_and_propagation (sattrs : List Attribute)
    (module_path : String)
    (h : derives_reflect_and_component_but_no_reflect_component sattrs = true) :
    collect_reflect_types
        [.modItem .inherited [] "outer"
          (some [.modItem .pub [] "inner" (some [.structItem .pub sattrs "T"])])]
        module_path true true = [] ∧
    collect_reflect_types
        [.modItem .pub [] "outer"
          (some [.modItem .pub [] "inner" (some [.structItem .pub sattrs "T"])])]
        module_path true true =
      [((module_path ++ "::" ++ "outer") ++ "::" ++ "inner") ++ "::" ++ "T"] := by
  constructor
  · simp [collect_cons_mod, collect_nil, has_cfg_test, vis_is_public]
  · simp [collect_cons_mod, collect_cons_struct, collect_nil, has_cfg_test,
      vis_is_public, h]

theorem c4_witness :
    derives_reflect_and_component_but_no_reflect_component
        [⟨.list "derive" "Reflect, Component" ["Reflect", "Component"]⟩] = true ∧
    (collect_reflect_types
        [.modItem .inherited [] "outer"
          (some [.modItem .pub [] "inner"
            (some [.structItem .pub
              [⟨.list "derive" "Reflect, Component" ["Reflect", "Component"]⟩]
              "T"])])]
        "crate" true true = [] ∧
    collect_reflect_types
        [.modItem .pub [] "outer"
          (some [.modItem .pub [] "inner"
            (some [.structItem .pub
              [⟨.list "derive" "Reflect, Component" ["Reflect", "Component"]⟩]
              "T"])])]
        "crate" true true =
      [(("crate" ++ "::" ++ "outer") ++ "::" ++ "inner") ++ "::" ++ "T"]) :=
  ⟨by decide,
    c4_visibility_and_propagation
      [⟨.list "derive" "Reflect, Component" ["Reflect", "Component"]⟩]
      "crate" (by decide)⟩

/-- C9: the `cfg(test)` check guards only module items, so a struct or
enum that carries the test-guard attribute directly on the definition (not
inside a test-guarded module) is still reported when it passes the
detection predicate and is public under a public parent. -/
theorem c9_cfg_test_on_type_definition_still_reported
    (attrs : List Attribute) (name module_path : String)
    (_hcfg : has_cfg_test attrs = true)
    (hpred :
      derives_reflect_and_component_but_no_reflect_component attrs = true) :
    collect_reflect_types [.structItem .pub attrs name] module_path true true =
      [module_path ++ "::" ++ name] ∧
    collect_reflect_types [.enumItem .pub attrs name] module_path true true =
      [module_path ++ "::" ++ name] := by
  constructor
  · simp [collect_cons_struct, collect_nil, vis_is_public, hpred]
  · simp [collect_cons_enum, collect_nil, vis_is_public, hpred]

theorem c9_witness :
    has_cfg_test
        [⟨.list "derive" "Reflect, Component" ["Reflect", "Component"]⟩,
          ⟨.list "cfg" "test" []⟩] = true ∧
    derives_reflect_and_component_but_no_reflect_component
        [⟨.list "derive" "Reflect, Component" ["Reflect", "Component"]⟩,
          ⟨.list "cfg" "test" []⟩] = true ∧
    (collect_reflect_types
        [.structItem .pub
          [⟨.list "derive" "Reflect, Component" ["Reflect", "Component"]⟩,
            ⟨.list "cfg" "test" []⟩] "T"] "crate" true true =
      ["crate" ++ "::" ++ "T"] ∧
    collect_reflect_types
        [.enumItem .pub
          [⟨.list "derive" "Reflect, Component" ["Reflect", "Component"]⟩,
            ⟨.list "cfg" "test" []⟩] "T"] "crate" true true =
      ["crate" ++ "::" ++ "T"]) :=
  ⟨by decide, by decide,
    c9_cfg_test_on_type_definition_still_reported
      [⟨.list "derive" "Reflect, Component" ["Reflect", "Component"]⟩,
        ⟨.list "cfg" "test" []⟩]
      "T" "crate" (by decide) (by decide)⟩

/-- C10: only `Visibility::Public` counts as visible; under the
public-only policy a struct, enum, or module with a restricted or absent
modifier contributes nothing to the findings (for a module, nothing from
anything nested inside it either, since the walker never recurses into
it). -/
theorem c10_only_unrestricted_public_is_visible (vis : Visibility)
    (attrs : List Attribute) (name module_path : String)
    (content : Option (List Item)) (parent_is_public : Bool)
    (hvis : vis ≠ .pub) :
    collect_reflect_types [.structItem vis attrs name] module_path true
        parent_is_public = [] ∧
    collect_reflect_types [.enumItem vis attrs name] module_path true
        parent_is_public = [] ∧
    collect_reflect_types [.modItem vis attrs name content] module_path true
        parent_is_public = [] := by
  have hv : vis_is_public vis = false := by
    cases vis with
    | pub => exact absurd rfl hvis
    | restricted p => rfl
    | inherited => rfl
  refine ⟨?_, ?_, ?_⟩
  · simp [collect_cons_struct, collect_nil, hv]
  · simp [collect_cons_enum, collect_nil, hv]
  · simp [collect_cons_mod, collect_nil, hv]

theorem c10_witness :
    (Visibility.restricted "crate" ≠ Visibility.pub) ∧
    (collect_reflect_types
        [.structItem (.restricted "crate")
          [⟨.list "derive" "Reflect, Component" ["Reflect", "Component"]⟩] "T"]
        "crate" true true = [] ∧
    collect_reflect_types
        [.enumItem (.restricted "crate")
          [⟨.list "derive" "Reflect, Component" ["Reflect", "Component"]⟩] "T"]
        "crate" true true = [] ∧
    collect_reflect_types
        [.modItem (.restricted "crate")
          [⟨.list "derive" "Reflect, Component" ["Reflect", "Component"]⟩] "T"
          (some [.structItem .pub
            [⟨.list "derive" "Reflect, Component" ["Reflect", "Component"]⟩]
            "T"])]
        "crate" true true = []) :=
  ⟨by decide,
    c10_only_unrestricted_public_is_visible (.restricted "crate")
      [⟨.list "derive" "Reflect, Component" ["Reflect", "Component"]⟩]
      "T" "crate"
      (some [.structItem .pub
        [⟨.list "derive" "Reflect, Component" ["Reflect", "Component"]⟩] "T"])
      true (by decide)⟩

/-- Rust `str::trim_end_matches(".rs")` acting on a reversed character
list: repeatedly remove a leading reversed `.rs` group. -/
def trim_rs_rev : List Char → List Char
  | 's' :: 'r' :: '.' :: rest => trim_rs_rev rest
  | l => l

/-- Rust `str::trim_end_matches(".rs")`: strip every trailing repetition
of the literal `.rs` from the string. -/
def trim_end_matches_rs (s : String) : String :=
  String.mk (trim_rs_rev s.data.reverse).reverse

/-- `relative_path_to_module_path` from the source: map
`trim_end_matches(".rs")` over every path segment, drop every segment
equal to `mod`, and join the rest with `::`. -/
def relative_path_to_module_path (path : List String) : String :=
  String.intercalate "::" ((path.map trim_end_matches_rs).filter (· != "mod"))

/-- Rust `Path::extension` on a single file-name segment: the part after
the last dot, provided some dot exists and is not the leading character. -/
def file_extension (name : String) : Option String :=
  let r := name.data.reverse
  let ext := r.takeWhile (· != '.')
  if ext.length == r.length then none
  else if ext.length + 1 == r.length then none
  else some (String.mk ext.reverse)

/-- Modelled from the spec: remove the single `.extension` suffix from a
segment, as in the claim's phrase "stripping the extension from the
terminal segment"; segments without an extension are unchanged. -/
def strip_ext_once (s : String) : String :=
  match file_extension s with
  | some ext => String.mk (s.data.take (s.data.length - ext.length - 1))
  | none => s

/-- Modelled from the spec: the module-path construction as claim C5 words
it — join the path segments with the delimiter after stripping the
extension from the terminal segment and discarding the final segment if
(and only if) it is the self-marker segment `mod`. -/
def module_path_per_claim (path : List String) : String :=
  let stripped :=
    path.dropLast ++
      (match path.getLast? with
       | some last => [strip_ext_once last]
       | none => [])
  let kept := if stripped.getLast? == some "mod" then stripped.dropLast else stripped
  String.intercalate "::" kept

theorem trim_rs_rev_cons (x : List Char) :
    trim_rs_rev ('s' :: 'r' :: '.' :: x) = trim_rs_rev x := rfl

theorem trim_append_rs (l : List Char) :
    trim_end_matches_rs (String.mk (l ++ ['.', 'r', 's'])) =
      trim_end_matches_rs (String.mk l) := by
  simp [trim_end_matches_rs, List.reverse_append, trim_rs_rev_cons]

/-- C5 counterexample: on the relative path `foo/mod/bar.rs` the code
yields `foo::bar` (the non-final `mod` segment is discarded too), while
the claim's construction — strip the extension from the terminal segment
and discard the final segment iff it is the self-marker — yields
`foo::mod::bar`; the two disagree. -/
theorem c5_counterexample :
    relative_path_to_module_path ["foo", "mod", "bar.rs"] = "foo::bar" ∧
    module_path_per_claim ["foo", "mod", "bar.rs"] = "foo::mod::bar" ∧
    relative_path_to_module_path ["foo", "mod", "bar.rs"] ≠
      module_path_per_claim ["foo", "mod", "bar.rs"] := by
  refine ⟨by decide, by decide, by decide⟩

/-- C5 amended: the module path is obtained by removing every trailing
repetition of the `.rs` suffix from every segment, discarding every
segment equal to the self-marker `mod` (not only the final one), and
joining the remaining segments with `::`; in particular `foo/bar.rs`
yields `foo::bar` and `foo/mod.rs` yields `foo`. -/
theorem c5_module_path_construction :
    relative_path_to_module_path ["foo", "bar.rs"] = "foo::bar" ∧
    relative_path_to_module_path ["foo", "mod.rs"] = "foo" ∧
    (∀ pre post : List String,
      relative_path_to_module_path (pre ++ "mod" :: post) =
        relative_path_to_module_path (pre ++ post)) ∧
    (∀ (pre post : List String) (l : List Char),
      relative_path_to_module_path (pre ++ String.mk (l ++ ['.', 'r', 's']) :: post) =
        relative_path_to_module_path (pre ++ String.mk l :: post)) := by
  refine ⟨by decide, by decide, ?_, ?_⟩
  · intro pre post
    have hmod : trim_end_matches_rs "mod" = "mod" := by decide
    simp [relative_path_to_module_path, List.map_append, List.filter_append,
      hmod, List.filter_cons]
  · intro pre post l
    simp [relative_path_to_module_path, List.map_append, List.filter_append,
      trim_append_rs]

/-- `should_include_dir` from the source: a walked entry is kept unless
its file name is exactly `examples` or exactly `tests`. -/
def should_include_dir (name : String) : Bool :=
  !(name == "examples" || name == "tests")

/-- A file-system tree for the directory walk: named files and named
directories with entries. -/
inductive FsEntry where
  | file (name : String)
  | dir (name : String) (entries : List FsEntry)

mutual

/-- `collect_source_files` from the source: the recursive directory walk
with `filter_entry should_include_dir`, yielding the path of every
surviving entry whose extension is `rs` (the pruning predicate is applied
to the entry itself — root included — and pruning a directory removes its
whole subtree); paths are segment lists extending the accumulated
prefix. -/
def collect_source_files : FsEntry → List String → List (List String)
  | .file name, pre =>
    if should_include_dir name && file_extension name == some "rs" then
      [pre ++ [name]]
    else []
  | .dir name entries, pre =>
    if should_include_dir name then
      (if file_extension name == some "rs" then [pre ++ [name]] else []) ++
        collect_source_files_list entries (pre ++ [name])
    else []

/-- Walk of a directory's entry list, in order. -/
def collect_source_files_list : List FsEntry → List String → List (List String)
  | [], _ => []
  | e :: rest, pre =>
    collect_source_files e pre ++ collect_source_files_list rest pre

end

theorem should_include_dir_ne (name : String)
    (h : should_include_dir name = true) :
    name ≠ "examples" ∧ name ≠ "tests" := by
  simp [should_include_dir] at h
  exact h

mutual

theorem csf_segments_good : ∀ (t : FsEntry) (pre p : List String),
    p ∈ collect_source_files t pre →
    ∃ rest, p = pre ++ rest ∧ ∀ s ∈ rest, s ≠ "examples" ∧ s ≠ "tests"
  | .file name, pre, p, hp => by
    simp only [collect_source_files] at hp
    split at hp
    next hcond =>
      simp only [List.mem_singleton] at hp
      subst hp
      refine ⟨[name], rfl, ?_⟩
      intro s hs
      simp only [List.mem_singleton] at hs
      subst hs
      exact should_include_dir_ne s (Bool.and_eq_true _ _ |>.mp hcond).1
    next => simp at hp
  | .dir name entries, pre, p, hp => by
    simp only [collect_source_files] at hp
    split at hp
    next hinc =>
      rw [List.mem_append] at hp
      cases hp with
      | inl h1 =>
        split at h1
        next =>
          simp only [List.mem_singleton] at h1
          subst h1
          refine ⟨[name], rfl, ?_⟩
          intro s hs
          simp only [List.mem_singleton] at hs
          subst hs
          exact should_include_dir_ne s hinc
        next => simp at h1
      | inr h2 =>
        obtain ⟨rest, hrest, hgood⟩ := csfl_segments_good entries (pre ++ [name]) p h2
        refine ⟨name :: rest, by simpa using hrest, ?_⟩
        intro s hs
        rcases List.mem_cons.mp hs with hs | hs
        · subst hs
          exact should_include_dir_ne s hinc
        · exact hgood s hs
    next => simp at hp

theorem csfl_segments_good : ∀ (l : List FsEntry) (pre p : List String),
    p ∈ collect_source_files_list l pre →
    ∃ rest, p = pre ++ rest ∧ ∀ s ∈ rest, s ≠ "examples" ∧ s ≠ "tests"
  | [], _, p, hp => absurd hp (by simp [collect_source_files_list])
  | e :: rest, pre, p, hp => by
    simp only [collect_source_files_list, List.mem_append] at hp
    cases hp with
    | inl h1 => exact csf_segments_good e pre p h1
    | inr h2 => exact csfl_segments_good rest pre p h2

end

/-- C6 counterexample: a directory named `fixtures` is not pruned — the
walk of a tree whose root is a `fixtures` directory containing `a.rs`
yields that file, so the claim's exclusion set (fixtures, examples and
tests) is wrong about `fixtures`. -/
theorem c6_counterexample :
    ["fixtures", "a.rs"] ∈
      collect_source_files (.dir "fixtures" [.file "a.rs"]) [] ∧
    should_include_dir "fixtures" = true := by
  decide

/-- C6 amended: source discovery prunes every entry named `examples` or
`tests` (fixtures directories are not excluded), so every yielded path
extends the starting prefix and none of its new segments is `examples` or
`tests`. -/
theorem c6_source_discovery_pruning (t : FsEntry) (pre p : List String)
    (hp : p ∈ collect_source_files t pre) :
    ∀ s ∈ p.drop pre.length, s ≠ "examples" ∧ s ≠ "tests" := by
  obtain ⟨rest, hrest, hgood⟩ := csf_segments_good t pre p hp
  subst hrest
  rw [List.drop_left]
  exact hgood

theorem c6_witness :
    (["src", "a.rs"] ∈
      collect_source_files (.dir "src" [.file "a.rs"]) []) ∧
    ("a.rs" ∈ (["src", "a.rs"] : List String).drop ([] : List String).length) ∧
    ("a.rs" ≠ "examples" ∧ "a.rs" ≠ "tests") :=
  ⟨by decide, by decide,
    c6_source_discovery_pruning (.dir "src" [.file "a.rs"]) [] ["src", "a.rs"]
      (by decide) "a.rs" (by decide)⟩

/-- One entry of `cargo_metadata`: a package name and the path of its
`Cargo.toml`, as a segment list. -/
structure Package where
  name : String
  manifest_path : List String

/-- The `cargo_metadata` result: the package list. -/
structure Metadata where
  packages : List Package

/-- Rust `Path::parent`: drop the last segment; `None` only for the empty
path (the code applies it to manifest paths, which are non-empty). -/
def parent_path (p : List String) : Option (List String) :=
  match p with
  | [] => none
  | _ => some p.dropLast

/-- Rust `Path::strip_prefix`: drop a component-wise prefix, failing when
it is not a prefix. -/
def strip_prefix_seg (pre path : List String) : Option (List String) :=
  if pre.isPrefixOf path then some (path.drop pre.length) else none

/-- Loop body of `crate_root_for_file`: scan the package list in order; a
package whose manifest has no parent aborts the whole search (the `?`
operator), a package whose manifest parent is a prefix of the path returns
that package's name. -/
def crate_root_for_file_go (path : List String) : List Package → Option String
  | [] => none
  | pkg :: rest =>
    match parent_path pkg.manifest_path with
    | none => none
    | some root =>
      if root.isPrefixOf path then some pkg.name
      else crate_root_for_file_go path rest

/-- `crate_root_for_file` from the source. -/
def crate_root_for_file (path : List String) (metadata : Metadata) :
    Option String :=
  crate_root_for_file_go path metadata.packages

/-- `crate_root_path` from the source: the manifest parent of the first
package with the given name. -/
def crate_root_path (crate_name : String) (metadata : Metadata) :
    Option (List String) :=
  (metadata.packages.find? fun pkg => pkg.name == crate_name).bind fun pkg =>
    parent_path pkg.manifest_path

/-- `resolve_module_path` from the source: when some package's root owns
the file, strip that root and prefix the crate name; otherwise strip the
local `src` prefix and use the bare module path; any failure yields
`none`. -/
def resolve_module_path (path : List String) (metadata : Metadata) :
    Option String :=
  match crate_root_for_file path metadata with
  | some crate_name =>
    match crate_root_path crate_name metadata with
    | none => none
    | some root =>
      match strip_prefix_seg root path with
      | none => none
      | some relative_path =>
        some (crate_name ++ "::" ++ relative_path_to_module_path relative_path)
  | none =>
    match strip_prefix_seg ["src"] path with
    | none => none
    | some relative_path => some (relative_path_to_module_path relative_path)

/-- The module store built by `main`: each discovered path whose content
was read and parsed successfully (`Option` models the combined
read-and-parse outcome) is paired with its item list; failed files are
dropped silently. -/
def build_module_tree (files : List (List String × Option (List Item))) :
    List (List String × List Item) :=
  files.filterMap fun pc => pc.2.map fun syn => (pc.1, syn)

/-- The findings loop of `main`: for every stored (path, tree) pair, if
the module path resolves, walk the tree with the public-only policy and
the root visibility flag true; files whose path does not resolve
contribute nothing. -/
def run_pipeline (files : List (List String × Option (List Item)))
    (metadata : Metadata) : List String :=
  ((build_module_tree files).map fun ps =>
    match resolve_module_path ps.1 metadata with
    | some module_path => collect_reflect_types ps.2 module_path true true
    | none => []).flatten

theorem run_pipeline_append (xs ys : List (List String × Option (List Item)))
    (metadata : Metadata) :
    run_pipeline (xs ++ ys) metadata =
      run_pipeline xs metadata ++ run_pipeline ys metadata := by
  simp [run_pipeline, build_module_tree, List.filterMap_append,
    List.map_append, List.flatten_append]

/-- C2: end to end, a run whose discovered input is exactly one file
holding a single public struct that derives `Reflect` and `Component`
without `#[reflect(Component)]` produces exactly the one finding
`module_path::name`; the same run with a `#[reflect(Component)]`
attribute appended to the struct produces no findings. -/
theorem c2_end_to_end_single_file (p : List String) (metadata : Metadata)
    (mp : String) (attrs : List Attribute) (toks name : String)
    (hres : resolve_module_path p metadata = some mp)
    (hpred :
      derives_reflect_and_component_but_no_reflect_component attrs = true) :
    run_pipeline [(p, some [.structItem .pub attrs name])] metadata =
      [mp ++ "::" ++ name] ∧
    run_pipeline
        [(p, some [.structItem .pub
          (attrs ++ [⟨.list "reflect" toks ["Component"]⟩]) name])]
        metadata = [] := by
  have hreg :
      has_registration (attrs ++ [⟨.list "reflect" toks ["Component"]⟩]) =
        true := by
    simp [has_registration, List.any_append]
  have hpred2 :
      derives_reflect_and_component_but_no_reflect_component
        (attrs ++ [⟨.list "reflect" toks ["Component"]⟩]) = false := by
    rw [detect_eq_caps]
    simp [hreg]
  constructor
  · simp [run_pipeline, build_module_tree, hres, collect_cons_struct,
      collect_nil, vis_is_public, hpred]
  · simp [run_pipeline, build_module_tree, hres, collect_cons_struct,
      collect_nil, hpred2]

theorem c2_witness :
    resolve_module_path ["src", "foo.rs"] ⟨[]⟩ = some "foo" ∧
    derives_reflect_and_component_but_no_reflect_component
        [⟨.list "derive" "Reflect, Component" ["Reflect", "Component"]⟩] =
      true ∧
    (run_pipeline
        [(["src", "foo.rs"],
          some [.structItem .pub
            [⟨.list "derive" "Reflect, Component" ["Reflect", "Component"]⟩]
            "T"])] ⟨[]⟩ = ["foo" ++ "::" ++ "T"] ∧
    run_pipeline
        [(["src", "foo.rs"],
          some [.structItem .pub
            ([⟨.list "derive" "Reflect, Component" ["Reflect", "Component"]⟩] ++
              [⟨.list "reflect" "Component" ["Component"]⟩]) "T"])] ⟨[]⟩ =
      []) :=
  ⟨by decide, by decide,
    c2_end_to_end_single_file ["src", "foo.rs"] ⟨[]⟩ "foo"
      [⟨.list "derive" "Reflect, Component" ["Reflect", "Component"]⟩]
      "Component" "T" (by decide) (by decide)⟩

/-- C7: silent skip — a discovered file whose read or parse failed
(`none` content), or whose module path does not resolve, contributes
nothing: the findings equal those of the run in which that file was never
discovered, with every other file untouched, and no other output channel
exists. -/
theorem c7_silent_skip (pre post : List (List String × Option (List Item)))
    (p : List String) (c : Option (List Item)) (metadata : Metadata)
    (h : c = none ∨ resolve_module_path p metadata = none) :
    run_pipeline (pre ++ (p, c) :: post) metadata =
      run_pipeline (pre ++ post) metadata := by
  have hmid : run_pipeline [(p, c)] metadata = [] := by
    rcases h with h | h
    · subst h
      simp [run_pipeline, build_module_tree]
    · cases c with
      | none => simp [run_pipeline, build_module_tree]
      | some tree => simp [run_pipeline, build_module_tree, h]
  have hsplit : pre ++ (p, c) :: post = (pre ++ [(p, c)]) ++ post := by simp
  rw [hsplit, run_pipeline_append, run_pipeline_append, run_pipeline_append,
    hmid, List.append_nil]

theorem c7_witness :
    ((some [Item.other] : Option (List Item)) = none ∨
      resolve_module_path ["elsewhere", "foo.rs"] ⟨[]⟩ = none) ∧
    run_pipeline
        ([(["src", "a.rs"], none)] ++
          (["elsewhere", "foo.rs"], some [Item.other]) :: []) ⟨[]⟩ =
      run_pipeline ([(["src", "a.rs"], none)] ++ []) ⟨[]⟩ :=
  ⟨Or.inr (by decide),
    c7_silent_skip [(["src", "a.rs"], none)] [] ["elsewhere", "foo.rs"]
      (some [Item.other]) ⟨[]⟩ (Or.inr (by decide))⟩

/-- C8: two-run determinism — for a fixed set of discovered files with
fixed contents and fixed metadata, the pipeline is a function, and even
when the module store is iterated in a different order (any permutation of
the file list, modelling the hash map's unspecified iteration order) the
findings of the two runs are equal as sets. -/
theorem c8_two_run_determinism
    (files₁ files₂ : List (List String × Option (List Item)))
    (metadata : Metadata) (h : files₁.Perm files₂) :
    ∀ x, x ∈ run_pipeline files₁ metadata ↔ x ∈ run_pipeline files₂ metadata := by
  have hperm :
      (run_pipeline files₁ metadata).Perm (run_pipeline files₂ metadata) := by
    unfold run_pipeline build_module_tree
    exact ((h.filterMap _).map _).flatten
  intro x
  exact hperm.mem_iff

theorem c8_witness :
    ([(["src", "a.rs"], (none : Option (List Item))),
        (["src", "b.rs"], some [Item.other])].Perm
      [(["src", "b.rs"], some [Item.other]),
        (["src", "a.rs"], (none : Option (List Item)))]) ∧
    ("x" ∈ run_pipeline
        [(["src", "a.rs"], (none : Option (List Item))),
          (["src", "b.rs"], some [Item.other])] ⟨[]⟩ ↔
      "x" ∈ run_pipeline
        [(["src", "b.rs"], some [Item.other]),
          (["src", "a.rs"], (none : Option (List Item)))] ⟨[]⟩) :=
  ⟨List.Perm.swap _ _ _,
    c8_two_run_determinism _ _ ⟨[]⟩ (List.Perm.swap _ _ _) "x"⟩

end BevyReflectCheck
